import Mathlib

set_option maxRecDepth 8192

/-!
Verification of the bettertls `go_x509` test runner
(`testsuites/go_x509.go`): a shallow embedding of the expectation
evaluator, the trial dispatcher, the per-trial worker body and the
failure aggregator, together with theorems about them.

Certificates are opaque to the runner's core logic (they are only
loaded, counted and handed to the verification capability), so they are
embedded as an arbitrary type `Cert`.  File reads and the platform's
`x509.Certificate.Verify` call are external collaborators and are
embedded as fields of an environment record `Env`; modelling them as
Lean functions makes them pure, which matches the spec's assumption
that the verification capability is a pure function of its arguments
for the duration of a run.
-/

namespace BetterTLS

/-- The six description strings recognized by the worker, from the
`const` block inside `worker` (go_x509.go lines 141-148). -/
def cnWithSANs : String :=
  "The DNS name for this certificate exists in the common name but not in the Subject Alternate Names extension even though the extension is specified. Most implementations will fail DNS-hostname validation on this certificate."

/-- Description tag `dnsInCNViolation` from the worker's const block. -/
def dnsInCNViolation : String :=
  "The DNS name in the common name violates a name constraint. Because there is a SAN extension, this might be ignored."

/-- Description tag `forbiddenIPAddressPresent` from the worker's const block. -/
def forbiddenIPAddressPresent : String :=
  "Althought the IP address is not the subject name in question, it's name constraint violation may still cause this certificate to be rejected."

/-- Description tag `ipInCNViolation` from the worker's const block. -/
def ipInCNViolation : String :=
  "The IP in the common name violates a name constraint. Because there is a SAN extension, this might be ignored."

/-- Description tag `ipViolation` from the worker's const block. -/
def ipViolation : String :=
  "The IP in the SAN extension violates a name constraint."

/-- Description tag `noIPGiven` from the worker's const block. -/
def noIPGiven : String :=
  "There is a IP name constraint but no IP in the certificate. This isn't an explicit violation, but some implementations will fail to validate the certificate."

/-- The tags of the first (non-fatal) case of the `switch desc` in the
worker's `Descriptions:` loop (go_x509.go line 212). -/
def nonFatalDescriptions : List String :=
  [forbiddenIPAddressPresent, noIPGiven, ipViolation, ipInCNViolation, dnsInCNViolation]

/-- `expectedResult` (go_x509.go lines 77-80): a result code string
(`expect` in JSON) and a list of description tags. -/
structure expectedResult where
  Result : String
  Descriptions : List String
deriving DecidableEq, Repr

/-- `expectation` (go_x509.go lines 50-62): one test case, with the two
per-subject-type expected results, the case-level description tags, and
the two transient fields `testDNS` and `err` that exist only in the
worker's copy.  The Go `err error` field is embedded as
`Option TestError` (`none` = nil). -/
inductive EvalError where
  | unknownResult (code : String)
  | weakOkWithoutDescription
  | unknownDescription (desc : String)
deriving DecidableEq, Repr

/-- The `error` values a trial can carry in its `err` field: plain
infrastructure errors (file read / parse / certificate count), the
evaluator's own errors, and an error returned by the verification
capability (stored at go_x509.go line 236). -/
inductive TestError where
  | infra (msg : String)
  | eval (e : EvalError)
  | verifyFailed (msg : String)
deriving DecidableEq, Repr

structure expectation where
  Id : Nat
  IP : expectedResult
  DNS : expectedResult
  Descriptions : List String
  testDNS : Bool := false
  err : Option TestError := none
deriving DecidableEq, Repr

/-- `(*expectation).descriptions` (go_x509.go lines 64-75): the
case-level tags followed by the tags of the subject-type being
tested. -/
def expectation.descriptions (e : expectation) : List String :=
  e.Descriptions ++ (if e.testDNS then e.DNS.Descriptions else e.IP.Descriptions)

/-- The `Descriptions:` loop of the worker (go_x509.go lines 209-226):
scan the tags left to right carrying the running `shouldFail`; a
non-fatal tag sets it to `false` and continues, the fatal tag
`cnWithSANs` sets it to `true` and breaks out of the loop, and any
other tag aborts the trial with an `unknown description` error. -/
def scanDescriptions : List String → Bool → Except EvalError Bool
  | [], shouldFail => .ok shouldFail
  | desc :: rest, _ =>
    if desc ∈ nonFatalDescriptions then scanDescriptions rest false
    else if desc = cnWithSANs then .ok true
    else .error (.unknownDescription desc)

/-- The `switch test.DNS.Result` of the worker (go_x509.go lines
191-227), factored out as the spec's `decide` contract but returning
the code's own `shouldFail` flag: `ERROR` → must fail, `OK` → must
succeed, `WEAK-OK` → error on an empty combined description list, else
scan the list; any other code is an `unknown expected result` error. -/
def decideShouldFail (result : String) (descs : List String) : Except EvalError Bool :=
  if result = "ERROR" then .ok true
  else if result = "OK" then .ok false
  else if result = "WEAK-OK" then
    if descs.length = 0 then .error .weakOkWithoutDescription
    else scanDescriptions descs false
  else .error (.unknownResult result)

/-- The spec-level `decide(expectedResult, descriptions) → {mustSucceed} | EvalError`
contract: `mustSucceed` is the negation of the code's `shouldFail`. -/
def decide (result : String) (descs : List String) : Except EvalError Bool :=
  (decideShouldFail result descs).map fun shouldFail => !shouldFail

/-- The external collaborators of one run, embedded as pure functions:
reading `<id>.chain`, reading `<id>.crt` (both via `readPEMChain`), and
the platform's `Verify` call with the run's fixed root pool and
configured hostname already applied.  `verify leaf chain = none` means
verification succeeded; `some msg` is the returned error. -/
structure Env (Cert : Type) where
  readChain : Nat → Except String (List Cert)
  readLeaf : Nat → Except String (List Cert)
  verify : Cert → List Cert → Option String

/-- The body of the worker's `for test := range work` loop (go_x509.go
lines 153-240) for a single trial, returning the list of values the
worker sends on the `failures` channel for that trial (each
`failures <- test` in the source appears as a one-element result; the
`continue` statements appear as returning immediately after it). -/
def processTest {Cert : Type} (env : Env Cert) (test : expectation) : List expectation :=
  if test.testDNS = false then []
  else
    match env.readChain test.Id with
    | .error e => [{ test with err := some (.infra e) }]
    | .ok chain =>
      match env.readLeaf test.Id with
      | .error e => [{ test with err := some (.infra e) }]
      | .ok leaf =>
        match leaf with
        | [l] =>
          match decideShouldFail test.DNS.Result test.descriptions with
          | .error e => [{ test with err := some (.eval e) }]
          | .ok shouldFail =>
            match env.verify l chain with
            | none => if shouldFail then [test] else []
            | some e => if shouldFail then [] else [{ test with err := some (.verifyFailed e) }]
        | _ =>
          [{ test with err := some (.infra
            ("expected a single certificate in the .crt file, but found " ++ toString leaf.length)) }]

/-- The dispatch loop of `runTests` (go_x509.go lines 112-121): each
expectation is sent twice on the work channel, first with
`testDNS = false` (the IP trial) and then with `testDNS = true` (the
DNS trial). -/
def trials (expects : List expectation) : List expectation :=
  expects.flatMap fun e => [{ e with testDNS := false }, { e with testDNS := true }]

/-- All failures produced by one run over a corpus, in dispatch order:
every trial is executed by `processTest` and its failure reports are
collected. -/
def runFailures {Cert : Type} (env : Env Cert) (expects : List expectation) : List expectation :=
  (trials expects).flatMap (processTest env)

/-- Go's `%q` of a string, without escaping (none of the runner's error
messages or tags contain characters `%q` would escape). -/
def goQuote (s : String) : String := "\"" ++ s ++ "\""

/-- The message of each evaluator error, as built by `fmt.Errorf` /
`errors.New` in the worker. -/
def EvalError.message : EvalError → String
  | .unknownResult code => "unknown expected result " ++ goQuote code
  | .weakOkWithoutDescription => "Weak-OK without description"
  | .unknownDescription desc => "unknown description for weak-OK: " ++ goQuote desc

/-- The message of a trial error. -/
def TestError.message : TestError → String
  | .infra m => m
  | .eval e => e.message
  | .verifyFailed m => m

/-- `fmt.Printf`'s rendering of `%q` applied to the trial's `err`
field: a nil error does not satisfy the verb and prints
`%!q(<nil>)`; otherwise the error's message is quoted. -/
def goQuoteErr : Option TestError → String
  | none => "%!q(<nil>)"
  | some e => goQuote e.message

/-- The text printed by `failureCounter` for one received failure
(go_x509.go line 256): `fmt.Printf("#%d: failed for %s:\n  %q\n  %q\n", ...)`
with the id, the subject-type name, the captured error and the
space-joined combined description list. -/
def failureReport (f : expectation) : String :=
  let testType := if f.testDNS then "DNS" else "IP"
  "#" ++ toString f.Id ++ ": failed for " ++ testType ++ ":\n  " ++
    goQuoteErr f.err ++ "\n  " ++
    goQuote (String.intercalate " " f.descriptions) ++ "\n"

/-- Modelled from the spec's words, for comparison with `failureReport`:
"prints one line per failed trial in the form
`#<id>: failed for <IP|DNS>: <error> <space-joined descriptions>`" —
a single line carrying the four parts separated by spaces. -/
def specFailureLine (f : expectation) : String :=
  let testType := if f.testDNS then "DNS" else "IP"
  "#" ++ toString f.Id ++ ": failed for " ++ testType ++ ": " ++
    goQuoteErr f.err ++ " " ++
    goQuote (String.intercalate " " f.descriptions)

/-- `failureCounter` (go_x509.go lines 245-260): drain the failures
stream in arrival order, incrementing the counter and printing one
report per failure, and finally deliver the count.  The result is the
delivered count together with the sequence of printed reports. -/
def failureCounterRun (failures : List expectation) : Nat × List String :=
  failures.foldl (fun acc f => (acc.1 + 1, acc.2 ++ [failureReport f])) (0, [])

/-- The tail of `runTests` (go_x509.go lines 127-132): after the run,
read the failure count and return an error iff it is nonzero.  Corpus
and config loading (lines 84-97) are external collaborators and are
assumed to have succeeded. -/
def runTests {Cert : Type} (env : Env Cert) (expects : List expectation) : Except String Unit :=
  let numFailures := (failureCounterRun (runFailures env expects)).1
  if numFailures ≠ 0 then
    .error ("failed " ++ toString numFailures ++ " of " ++ toString expects.length ++ " tests")
  else
    .ok ()

/-- `main` (go_x509.go lines 262-270): exit status 1 when `runTests`
returns an error, otherwise print the success marker `PASS` and exit 0.
The result is the exit status and the printed success-marker lines. -/
def mainRun {Cert : Type} (env : Env Cert) (expects : List expectation) : Nat × List String :=
  match runTests env expects with
  | .error _ => (1, [])
  | .ok _ => (0, ["PASS"])

/-- A concrete environment for witnesses: chain files are empty, every
leaf file holds exactly one certificate, and verification always
succeeds. -/
def env0 : Env Nat :=
  { readChain := fun _ => .ok []
    readLeaf := fun _ => .ok [0]
    verify := fun _ _ => none }

/-- A concrete expected result with code `OK` and no tags. -/
def er0 : expectedResult := { Result := "OK", Descriptions := [] }

/-- A concrete expectation whose both expected results are `er0`. -/
def e0 : expectation := { Id := 7, IP := er0, DNS := er0, Descriptions := [] }

/-- A concrete expectation with code `WEAK-OK` and no tags anywhere. -/
def e1 : expectation :=
  { Id := 10, IP := er0, DNS := { Result := "WEAK-OK", Descriptions := [] }, Descriptions := [] }

/-- A concrete failed trial, used to compare the aggregator's actual
report text against the spec's single-line form. -/
def f1 : expectation :=
  { e1 with testDNS := true, err := some (.eval .weakOkWithoutDescription) }

/-! ## Helper lemmas -/

theorem cnWithSANs_not_nonFatal : cnWithSANs ∉ nonFatalDescriptions := by decide

theorem scan_fatal (descs : List String) :
    ∀ sf : Bool, (∀ d ∈ descs, d ∈ nonFatalDescriptions ∨ d = cnWithSANs) →
      cnWithSANs ∈ descs → scanDescriptions descs sf = .ok true := by
  induction descs with
  | nil => intro sf _ hmem; cases hmem
  | cons d rest ih =>
    intro sf hrec hmem
    by_cases hd : d ∈ nonFatalDescriptions
    · rw [scanDescriptions, if_pos hd]
      refine ih false (fun x hx => hrec x (List.mem_cons_of_mem d hx)) ?_
      rcases List.mem_cons.mp hmem with hcn | hcn
      · exact absurd (hcn ▸ hd) cnWithSANs_not_nonFatal
      · exact hcn
    · have hdc : d = cnWithSANs := (hrec d (List.mem_cons_self d rest)).resolve_left hd
      rw [scanDescriptions, if_neg hd, if_pos hdc]

theorem scan_unknown (pre : List String) :
    ∀ (d : String) (rest : List String) (sf : Bool), (∀ x ∈ pre, x ∈ nonFatalDescriptions) →
      d ∉ nonFatalDescriptions → d ≠ cnWithSANs →
      scanDescriptions (pre ++ d :: rest) sf = .error (.unknownDescription d) := by
  induction pre with
  | nil =>
    intro d rest sf _ hd1 hd2
    rw [List.nil_append, scanDescriptions, if_neg hd1, if_neg hd2]
  | cons p pre ih =>
    intro d rest sf hpre hd1 hd2
    rw [List.cons_append, scanDescriptions, if_pos (hpre p (List.mem_cons_self p pre))]
    exact ih d rest false (fun x hx => hpre x (List.mem_cons_of_mem p hx)) hd1 hd2

theorem trials_length (es : List expectation) : (trials es).length = 2 * es.length := by
  induction es with
  | nil => rfl
  | cons e es ih => simp only [trials, List.flatMap_cons] at ih ⊢; simp [ih]; ring

theorem flatMap_flatten {α β : Type} (f : α → List β) (ws : List (List α)) :
    (ws.map fun w => w.flatMap f).flatten = ws.flatten.flatMap f := by
  induction ws with
  | nil => rfl
  | cons w ws ih => simp [List.flatMap_append, ih]

theorem failureCounterRun_foldl (fs : List expectation) :
    ∀ (n : Nat) (out : List String),
      fs.foldl (fun acc f => (acc.1 + 1, acc.2 ++ [failureReport f])) (n, out) =
        (n + fs.length, out ++ fs.map failureReport) := by
  induction fs with
  | nil => intro n out; simp
  | cons f fs ih =>
    intro n out
    rw [List.foldl_cons, ih]
    simp [Nat.add_comm, Nat.add_assoc, Nat.add_left_comm]

/-! ## Claim theorems -/

/-- C1: for an `ExpectedResult` with code `WEAK-OK` whose combined
description list has every tag recognized and contains the fatal-class
tag (`cnWithSANs`) somewhere, `decide` returns `mustSucceed = false`:
the left-to-right scan reaches the first fatal tag, overrides
`shouldFail` to `true` and breaks, so non-fatal tags appearing before
or after it cannot change the verdict. -/
theorem weakOk_fatal_tag_forces_fail (descs : List String)
    (hrec : ∀ d ∈ descs, d ∈ nonFatalDescriptions ∨ d = cnWithSANs)
    (hfatal : cnWithSANs ∈ descs) :
    decide "WEAK-OK" descs = .ok false := by
  have hne : ¬descs.length = 0 := by
    cases descs with
    | nil => cases hfatal
    | cons a l => simp
  unfold decide decideShouldFail
  rw [if_neg (by decide), if_neg (by decide), if_pos rfl, if_neg hne,
    scan_fatal descs false hrec hfatal]
  rfl

/-- C1 witness: a fatal tag between two non-fatal tags yields
`mustSucceed = false`. -/
theorem weakOk_fatal_tag_forces_fail_witness :
    decide "WEAK-OK" [ipViolation, cnWithSANs, noIPGiven] = .ok false :=
  weakOk_fatal_tag_forces_fail _ (by decide) (by decide)

/-- C2: result code `OK` decides `mustSucceed = true` and result code
`ERROR` decides `mustSucceed = false`, with no evaluation error, for
any combined description list. -/
theorem ok_and_error_codes (descs : List String) :
    decide "OK" descs = .ok true ∧ decide "ERROR" descs = .ok false :=
  ⟨rfl, rfl⟩

/-- C3: a `WEAK-OK` expected result with an empty combined description
list is an evaluation error, and the worker reports the trial as a
failure carrying that error, whatever the verification capability
would have answered (the environment's `verify` is never consulted). -/
theorem weakOk_empty_descriptions_error {Cert : Type} (env : Env Cert) (t : expectation)
    (chain : List Cert) (l : Cert)
    (hdns : t.testDNS = true) (hres : t.DNS.Result = "WEAK-OK")
    (hdesc : t.descriptions = [])
    (hchain : env.readChain t.Id = .ok chain) (hleaf : env.readLeaf t.Id = .ok [l]) :
    decide t.DNS.Result t.descriptions = .error .weakOkWithoutDescription
    ∧ processTest env t = [{ t with err := some (.eval .weakOkWithoutDescription) }] := by
  have hd : decideShouldFail t.DNS.Result t.descriptions = .error .weakOkWithoutDescription := by
    rw [hres, hdesc]; rfl
  constructor
  · unfold decide
    rw [hd]
    rfl
  · unfold processTest
    rw [hdns, hchain, hleaf, hd]
    simp

/-- C3 witness: the concrete `WEAK-OK`-without-tags expectation is
evaluated to the error and reported as a failure. -/
theorem weakOk_empty_descriptions_error_witness :
    decide ({ e1 with testDNS := true } : expectation).DNS.Result
        ({ e1 with testDNS := true } : expectation).descriptions = .error .weakOkWithoutDescription
    ∧ processTest env0 { e1 with testDNS := true } =
        [{ e1 with testDNS := true, err := some (.eval .weakOkWithoutDescription) }] :=
  weakOk_empty_descriptions_error env0 _ [] 0 rfl rfl rfl rfl rfl

/-- C4 counterexample: an unrecognized description tag does NOT make the
evaluator fail for every result code.  Under `OK` and `ERROR` the tag
is silently ignored, and under `WEAK-OK` even an unrecognized tag after
the fatal tag is never looked at because the scan breaks first. -/
theorem unknown_tag_ok_code_no_error :
    decide "OK" ["not-a-known-tag"] = .ok true
    ∧ decide "ERROR" ["not-a-known-tag"] = .ok false
    ∧ decide "WEAK-OK" [cnWithSANs, "not-a-known-tag"] = .ok false :=
  ⟨rfl, rfl, rfl⟩

/-- C4 amended: under result code `WEAK-OK`, a description tag outside
the recognized vocabulary that is preceded only by non-fatal tags makes
the evaluator fail with an error naming that tag. -/
theorem weakOk_unknown_tag_named_error (pre : List String) (d : String) (rest : List String)
    (hpre : ∀ x ∈ pre, x ∈ nonFatalDescriptions)
    (hd1 : d ∉ nonFatalDescriptions) (hd2 : d ≠ cnWithSANs) :
    decide "WEAK-OK" (pre ++ d :: rest) = .error (.unknownDescription d) := by
  have hne : ¬(pre ++ d :: rest).length = 0 := by simp
  unfold decide decideShouldFail
  rw [if_neg (by decide), if_neg (by decide), if_pos rfl, if_neg hne,
    scan_unknown pre d rest false hpre hd1 hd2]
  rfl

/-- C4 witness: a non-fatal tag followed by an unrecognized tag yields
the error naming the unrecognized tag. -/
theorem weakOk_unknown_tag_named_error_witness :
    decide "WEAK-OK" ([ipViolation] ++ "not-a-known-tag" :: []) =
      .error (.unknownDescription "not-a-known-tag") :=
  weakOk_unknown_tag_named_error [ipViolation] "not-a-known-tag" [] (by decide) (by decide)
    (by decide)

/-- C5 counterexample: both trials dispatched for a concrete matching
expectation (the skipped IP trial and the matching DNS trial) send
nothing to the aggregator, so it is not the case that every trial is
reported exactly once regardless of outcome. -/
theorem matched_and_skipped_trials_unreported :
    (trials [e0]).length = 2
    ∧ processTest env0 { e0 with testDNS := false } = []
    ∧ processTest env0 { e0 with testDNS := true } = []
    ∧ runFailures env0 [e0] = [] :=
  ⟨rfl, rfl, rfl, rfl⟩

/-- C5 amended: every trial is reported to the aggregator AT MOST once
— the worker sends at most one value on the failures channel per trial
— and a skipped trial (subject-type IP, unsupported by Go) is never
reported at all. -/
theorem trial_reported_at_most_once {Cert : Type} (env : Env Cert) (t : expectation) :
    (processTest env t).length ≤ 1 ∧ processTest env { t with testDNS := false } = [] := by
  constructor
  · unfold processTest
    repeat' split
    all_goals simp
  · rfl

/-- C6: for a fixed corpus and environment, the multiset of failure
reports — hence the mismatch count and the set of reported failures —
is the same however the dispatched trials are partitioned among any
number of workers and in whatever order each worker receives them:
whenever the concatenation of the workers' trial queues is a
permutation of the dispatched trials, the collected failures are a
permutation of the sequential run's failures and their count is
identical. -/
theorem verdict_invariant_under_scheduling {Cert : Type} (env : Env Cert)
    (expects : List expectation) (workers : List (List expectation))
    (hperm : workers.flatten.Perm (trials expects)) :
    ((workers.map fun w => w.flatMap (processTest env)).flatten).Perm (runFailures env expects)
    ∧ ((workers.map fun w => w.flatMap (processTest env)).flatten).length =
        (runFailures env expects).length := by
  have h2 : (workers.flatten.flatMap (processTest env)).Perm (runFailures env expects) :=
    List.Perm.flatMap_right (processTest env) hperm
  rw [flatMap_flatten]
  exact ⟨h2, h2.length_eq⟩

/-- A two-worker schedule of the trials of `[e0]`, in reversed order. -/
def w6 : List (List expectation) := [[{ e0 with testDNS := true }], [{ e0 with testDNS := false }]]

/-- C6 witness: a two-worker schedule executing the two trials in
reversed order produces the same failures as the sequential run. -/
theorem verdict_invariant_under_scheduling_witness :
    ((w6.map fun w => w.flatMap (processTest env0)).flatten).Perm (runFailures env0 [e0])
    ∧ ((w6.map fun w => w.flatMap (processTest env0)).flatten).length =
        (runFailures env0 [e0]).length :=
  verdict_invariant_under_scheduling env0 [e0] w6 (List.Perm.swap _ _ _)

/-- C7: the run exits with a non-zero status exactly when the
aggregator's final failure count is nonzero, and with a zero exit
status together with the single `PASS` marker when the count is zero
(corpus and config loading, which are external, are assumed to have
succeeded). -/
theorem exit_nonzero_iff_failures {Cert : Type} (env : Env Cert) (expects : List expectation) :
    mainRun env expects =
      (if (failureCounterRun (runFailures env expects)).1 ≠ 0 then ((1 : Nat), ([] : List String))
        else (0, ["PASS"]))
    ∧ ((mainRun env expects).1 ≠ 0 ↔ (failureCounterRun (runFailures env expects)).1 ≠ 0) := by
  unfold mainRun runTests
  by_cases h : (failureCounterRun (runFailures env expects)).1 = 0
  · simp [h]
  · simp [h]

/-- C8: the dispatcher enqueues exactly `2 × len(expectations)` trials
before closing the work queue: for the i-th expectation, position 2i
holds its IP trial (`testDNS = false`) and position 2i+1 its DNS trial
(`testDNS = true`). -/
theorem dispatcher_two_trials_per_expectation (es : List expectation) :
    ∀ (i : Nat) (h : i < es.length),
      (trials es).length = 2 * es.length
      ∧ (trials es)[2 * i]? = some { es[i] with testDNS := false }
      ∧ (trials es)[2 * i + 1]? = some { es[i] with testDNS := true } := by
  induction es with
  | nil => intro i h; cases h
  | cons e es ih =>
    intro i h
    refine ⟨trials_length _, ?_, ?_⟩
    · cases i with
      | zero =>
        rw [show trials (e :: es) =
            { e with testDNS := false } :: { e with testDNS := true } :: trials es from rfl]
        simp
      | succ j =>
        have h' : j < es.length := Nat.lt_of_succ_lt_succ h
        have hidx : 2 * (j + 1) = 2 * j + 1 + 1 := by ring
        rw [hidx,
          show trials (e :: es) =
            { e with testDNS := false } :: { e with testDNS := true } :: trials es from rfl,
          List.getElem?_cons_succ, List.getElem?_cons_succ]
        have hj := (ih j h').2.1
        simpa using hj
    · cases i with
      | zero =>
        rw [show trials (e :: es) =
            { e with testDNS := false } :: { e with testDNS := true } :: trials es from rfl]
        simp
      | succ j =>
        have h' : j < es.length := Nat.lt_of_succ_lt_succ h
        have hidx : 2 * (j + 1) + 1 = 2 * j + 1 + 1 + 1 := by ring
        rw [hidx,
          show trials (e :: es) =
            { e with testDNS := false } :: { e with testDNS := true } :: trials es from rfl,
          List.getElem?_cons_succ, List.getElem?_cons_succ]
        have hj := (ih j h').2.2
        simpa using hj

/-- C8 witness: for the one-expectation corpus `[e0]` the dispatcher
enqueues exactly its IP trial then its DNS trial. -/
theorem dispatcher_two_trials_per_expectation_witness :
    (trials [e0]).length = 2 * ([e0] : List expectation).length
    ∧ (trials [e0])[2 * 0]? = some { e0 with testDNS := false }
    ∧ (trials [e0])[2 * 0 + 1]? = some { e0 with testDNS := true } :=
  dispatcher_two_trials_per_expectation [e0] 0 (by decide)

/-- C9 counterexample: the aggregator's actual report for a failed
trial is not the single line `#<id>: failed for <IP|DNS>: <error>
<space-joined descriptions>` that the claim states — it spans several
lines (it contains a newline) and quotes the error and the joined
descriptions on indented lines of their own. -/
theorem failure_report_not_single_line :
    failureReport f1 ≠ specFailureLine f1
    ∧ (failureReport f1).data.contains (Char.ofNat 10) = true :=
  ⟨by decide, by decide⟩

/-- C9 amended: the aggregator prints exactly one report per failed
trial, in arrival order, of the form `#<id>: failed for <IP|DNS>:`
followed by the quoted captured error and the quoted space-joined
description list on two indented lines, and its final count equals the
number of failures received. -/
theorem failure_reports_one_per_trial (fs : List expectation) :
    failureCounterRun fs = (fs.length, fs.map failureReport) := by
  unfold failureCounterRun
  rw [failureCounterRun_foldl]
  simp

/-- C10: under result codes `OK` and `ERROR` the evaluator never
inspects the description list: its answer is the same for any two
description lists — empty or containing unrecognized tags — and is
always a decision, never an error. -/
theorem ok_error_ignore_descriptions (ds ds' : List String) :
    (decide "OK" ds = decide "OK" ds' ∧ decide "ERROR" ds = decide "ERROR" ds')
    ∧ decide "OK" ds = .ok true ∧ decide "ERROR" ds = .ok false :=
  ⟨⟨rfl, rfl⟩, rfl, rfl⟩

end BetterTLS
